import Mathlib

/-!
# Verification of the idleon-saver export transformation

Shallow embedding of `idleon_saver/scripts/export.py`: the derivation helpers
and the `Exporter` format builders, modelled over explicit data.  Static
reference tables (`idleon_saver.data`) are external inputs and are modelled as
a record of total maps and association lists (`RefData`).  Python `dict`s that
the code iterates over are modelled as association lists preserving insertion
order; fallible operations (`KeyError`, `IndexError`, `ValueError`) are
modelled with `Except String`.
-/

namespace Idleon

/-- `charsLead p l` is true when `p` is an initial run of `l`
(model of Python `str.startswith` on character lists). -/
def charsLead : List Char → List Char → Bool
  | [], _ => true
  | _ :: _, [] => false
  | p :: ps, c :: cs => p = c && charsLead ps cs

/-- Model of Python `s.startswith(p)`. -/
def strLead (p s : String) : Bool := charsLead p.toList s.toList

/-- Model of Python `s.endswith(p)`. -/
def strEnds (p s : String) : Bool := charsLead p.toList.reverse s.toList.reverse

/-- Model of Python `s.removeprefix(p)`: drop `p` when it leads `s`, else `s` unchanged. -/
def removePre (p s : String) : String :=
  if strLead p s then ⟨s.toList.drop p.toList.length⟩ else s

/-- Model of Python `c in s` for a single character `c`. -/
def strHas (s : String) (c : Char) : Bool := s.toList.contains c

/-- Last-match association-list lookup: Python `dict` built from a pair list
keeps the *last* value bound to a duplicated key, so lookup returns the last match. -/
def lookupLast {α : Type} : List (String × α) → String → Option α
  | [], _ => none
  | (k2, v) :: rest, k =>
    match lookupLast rest k with
    | some v2 => some v2
    | none => if k2 = k then some v else none

/-- Python `str.title()` on the character list: uppercase every alphabetic
character that does not follow an alphabetic character, lowercase the rest. -/
def titleChars : Bool → List Char → List Char
  | _, [] => []
  | prevAlpha, c :: cs =>
    (if c.isAlpha then (if prevAlpha then c.toLower else c.toUpper) else c)
      :: titleChars c.isAlpha cs

/-- `friendly_name` from the source: replace underscores by spaces and title-case. -/
def friendly_name (s : String) : String :=
  ⟨titleChars false (s.toList.map (fun c => if c = '_' then ' ' else c))⟩

/-- External reference tables from `idleon_saver.data`, modelled as total maps
and association lists.  Their contents are immutable input data. -/
structure RefData where
  class_names : Int → String
  card_reqs : String → Int
  monsterNames : String → String
  pouch_names : String → String
  pouch_sizes : Int → String
  cog_type_map : List (String × String)
  cog_datas_map : List (String × String)
  cog_boosts : List String
  constellation_names : Nat → String
  vial_names : List String
  starsign_names : Int → String
  starsign_ids : String → String
  skill_names : List String
  statue_names : List String
  stampList : List (List String)
  gem_bag_map : List (String × String)
  storage_bag_map : List (String × String)
  inv_bag_map : List (String × String)

/-- `get_baseclass` from the source: ids 1–5 collapse to 1, and each of the
bases 7, 19, 31 absorbs its own id plus the next six; anything else raises. -/
def get_baseclass (which : Int) : Except String Int :=
  if 1 ≤ which ∧ which < 6 then .ok 1
  else if 7 ≤ which ∧ which < 14 then .ok 7
  else if 19 ≤ which ∧ which < 26 then .ok 19
  else if 31 ≤ which ∧ which < 38 then .ok 31
  else .error "ValueError: class does not exist"

/-- `get_classname` from the source: friendly name of the class-name table entry. -/
def get_classname (rd : RefData) (which : Int) : String :=
  friendly_name (rd.class_names which)

/-- The class field as the specification describes it: resolve the id through
the base-class lookup first, then convert the base id to a display name. -/
def class_field_spec (rd : RefData) (which : Int) : Except String String :=
  match get_baseclass which with
  | .error e => .error e
  | .ok b => .ok (get_classname rd b)

/-- `get_starsign_from_index` from the source. -/
def get_starsign_from_index (rd : RefData) (i : Int) : String :=
  rd.starsign_ids (rd.starsign_names i)

/-- `get_cardtier` from the source. -/
def get_cardtier (reqs : String → Int) (name : String) (level : Int) : Int :=
  if level = 0 then 0
  else if level ≥ reqs name * 9 then 4
  else if level ≥ reqs name * 4 then 3
  else if level ≥ reqs name then 2
  else 1

/-- `get_pouchsize` from the source. -/
def get_pouchsize (sizes : Int → String) (itemtype : String) (stacksize : Int) : String :=
  if stacksize = 25 ∧ itemtype = "bCraft" then "Mini"
  else if stacksize = 25 ∧ itemtype = "Foods" then "Miniscule"
  else sizes stacksize

/-- `get_pouches` from the source: one pouch name per carry-capacity category
with stack size above 10, in iteration order. -/
def get_pouches (pn : String → String) (ps : Int → String)
    (carrycaps : List (String × Int)) : List String :=
  carrycaps.filterMap (fun p =>
    if p.2 > 10
    then some (String.intercalate " " [get_pouchsize ps p.1 p.2, pn p.1, "Pouch"])
    else none)

/-- `get_empties` from the source: fails when the board has fewer than 96
entries, otherwise collects `(x, y)` for every blank slot of the 8×12 board. -/
def get_empties (cogs : List String) : Except String (List (Nat × Nat)) :=
  if cogs.length < 96 then
    .error "cog list must contain at least 96 entries to cover the whole cog board"
  else
    .ok ((List.range 8).flatMap (fun y =>
      (List.range 12).filterMap (fun x =>
        if cogs.getD (y * 12 + x) "" = "Blank" then some (x, y) else none)))

/-- The first directional suffix of `cog_type_map` matching the name, if any
(the loop body of `get_cog_type`). -/
def findDirectional : List (String × String) → String → Option String
  | [], _ => none
  | (dir, ct) :: rest, name =>
    if strEnds dir name then some ct else findDirectional rest name

/-- `get_cog_type` from the source. -/
def get_cog_type (ctm : List (String × String)) (name : String) : Option String :=
  if name = "Blank" then none
  else if strLead "Player_" name then some "Character"
  else if name = "CogY" then some "Yang_Cog"
  else if strLead "CogZ" name then some "Omni_Cog"
  else
    match findDirectional ctm name with
    | some t => some (t ++ "_Cog")
    | none => some "Cog"

/-- One row of the cogstruction `cog_datas` table.  A field value of `none`
models the blank string written for bonuses the cog does not have. -/
structure CogRow where
  cog_type : String
  name : String
  fields : List (String × Option Rat)
  deriving DecidableEq

/-- `get_cog_data` from the source: `none` for the blank marker, otherwise the
row with the classified type, the (stripped or blank) name, and one entry per
`cog_datas_map` field — boosts divided by 100, missing keys left blank. -/
def get_cog_data (rd : RefData) (cog : String → Option Rat) (name : String) :
    Option CogRow :=
  match get_cog_type rd.cog_type_map name with
  | none => none
  | some ct =>
    some
      { cog_type := ct
        name := if ct = "Character" then removePre "Player_" name else ""
        fields := rd.cog_datas_map.map (fun kf =>
          (kf.2,
            match cog kf.1 with
            | none => none
            | some v => some (if kf.1 ∈ rd.cog_boosts then v / 100 else v))) }

/-- Error-propagating map over a list (model of Python comprehensions and
`starmap`: the first raised exception aborts the whole construction). -/
def mapE {α β : Type} (f : α → Except String β) : List α → Except String (List β)
  | [] => .ok []
  | a :: as =>
    match f a with
    | .error e => .error e
    | .ok b =>
      match mapE f as with
      | .error e => .error e
      | .ok bs => .ok (b :: bs)

/-- Characters stripped by `strip(",_")`. -/
def sepChar (c : Char) : Bool := c = ',' || c = '_'

/-- Model of Python `s.strip(",_")`: drop leading and trailing separator characters. -/
def stripSep (s : String) : String :=
  ⟨((s.toList.dropWhile sepChar).reverse.dropWhile sepChar).reverse⟩

/-- Model of Python `s.split(",")`; splitting the empty string gives `[""]`. -/
def splitCommaChars : List Char → List Char → List String
  | [], cur => [⟨cur.reverse⟩]
  | c :: cs, cur =>
    if c = ',' then (⟨cur.reverse⟩ : String) :: splitCommaChars cs []
    else splitCommaChars cs (c :: cur)

/-- Model of Python `s.split(",")`. -/
def splitComma (s : String) : List String := splitCommaChars s.toList []

/-- Digit-run accumulator for `parseInt`. -/
def digitsValAux : List Char → Nat → Option Nat
  | [], acc => some acc
  | c :: cs, acc =>
    if c.isDigit then digitsValAux cs (acc * 10 + (c.toNat - 48)) else none

/-- Model of Python `int(s)` restricted to an optional sign followed by digits;
anything else raises `ValueError` (modelled as `none`). -/
def parseInt (s : String) : Option Int :=
  match s.toList with
  | [] => none
  | '-' :: rest =>
    match rest with
    | [] => none
    | _ => (digitsValAux rest 0).map (fun n => -(n : Int))
  | l => (digitsValAux l 0).map (fun n => (n : Int))

/-- The code string zipped against player names by `char_map`:
`"_" + ascii_lowercase`. -/
def sentinelCodes : String := "_" ++ "abcdefghijklmnopqrstuvwxyz"

/-- `Exporter.char_map` from the source: player names zipped against the
sentinel-prefixed alphabet (`zip` truncates to the shorter side, so only the
first 27 players receive a code). -/
def char_map (names : List String) : List (String × Char) :=
  names.zip sentinelCodes.toList

/-- Loop body of `get_player_constellations`: the comprehension over the
enumerated starsign progression list; the `char_map` lookup happens inside the
loop and raises `KeyError` when the player has no code. -/
def gpc_aux (rd : RefData) (cm : List (String × Char)) (charname : String) :
    Nat → List (Option String × Int) → Except String (List String)
  | _, [] => .ok []
  | i, (chars, _) :: rest =>
    match lookupLast cm charname with
    | none => .error "KeyError: char_map"
    | some c =>
      match gpc_aux rd cm charname (i + 1) rest with
      | .error e => .error e
      | .ok l =>
        .ok (if strHas ((chars).getD "") c then rd.constellation_names i :: l else l)

/-- `Exporter.get_player_constellations` from the source.  An entry's `chars`
component is `none` when the saved completion string is null; `chars or ""`
turns that into the empty string, which contains no code character. -/
def get_player_constellations (rd : RefData) (names : List String)
    (prog : List (Option String × Int)) (charname : String) :
    Except String (List String) :=
  gpc_aux rd (char_map names) charname 0 prog

/-- `Exporter.parse_player_starsigns` from the source. -/
def parse_player_starsigns (rd : RefData) (codes : String) :
    Except String (List String) :=
  mapE (fun k =>
      match parseInt k with
      | none => .error "ValueError: invalid literal for int"
      | some i => .ok (get_starsign_from_index rd i))
    (splitComma (stripSep codes))

/-- Modelled from the spec: `from_keys_in` lives in `idleon_saver.utility`,
which is not part of the transformation sources here.  The spec describes its
uses as "X items present in Y, each true": every given key that occurs in the
(bag) mapping contributes its mapped display name. -/
def from_keys_in (d : List (String × String)) (keys : List String) : List String :=
  keys.filterMap (fun k => lookupLast d k)

/-- One player record of the companion `chars` section. -/
structure PlayerRecord where
  name : String
  klass : String
  level : Int
  constellations : List String
  starSigns : List String
  skills : List (String × Int)
  items : List String
  deriving DecidableEq

/-- `Exporter.build_char` from the source.  The record fields are evaluated in
the order of the Python dict literal, so an out-of-range stat list raises
before the constellation lookup, which raises before starsign parsing. -/
def build_char (rd : RefData) (names : List String)
    (prog : List (Option String × Int)) (name : String) (klass : Int)
    (stats : List Int) (starsigns : String) (skills : List Int)
    (bags : List String) (carrycaps : List (String × Int)) :
    Except String PlayerRecord :=
  match stats[4]? with
  | none => .error "IndexError: stats"
  | some lvl =>
    match get_player_constellations rd names prog name with
    | .error e => .error e
    | .ok cs =>
      match parse_player_starsigns rd starsigns with
      | .error e => .error e
      | .ok ss =>
        .ok
          { name := name
            klass := get_classname rd klass
            level := lvl
            constellations := cs
            starSigns := ss
            skills := (rd.skill_names.zip skills).drop 1
            items := from_keys_in rd.inv_bag_map bags
              ++ get_pouches rd.pouch_names rd.pouch_sizes carrycaps }

/-- The derived state of a constructed `Exporter`: the per-player parallel
sequences plus the save-specific fields the concrete adapter supplies. -/
structure Exporter where
  names : List String
  classes : List Int
  skill_levels : List (List Int)
  statue_levels : List (List (List Rat))
  bags_used : List (List String)
  carrycaps : List (List (String × Int))
  stats : List (List Int)
  cauldron : List (List Int)
  starsigns_unlocked : List (String × Int)
  starsigns_prog : List (Option String × Int)
  starsigns_equipped : List String
  cards : List (String × Int)
  stamp_levels : List (List Int)
  statues_golden : List Int
  cog_map : List (String → Option Rat)
  cog_order : List String
  storage_used : List String

/-- `Exporter.get_chars` from the source: `build_char` starmapped over the
zipped per-player sequences (`zip` truncates to the shortest sequence). -/
def get_chars (rd : RefData) (e : Exporter) : Except String (List PlayerRecord) :=
  mapE
    (fun x =>
      build_char rd e.names e.starsigns_prog x.1 x.2.1 x.2.2.1 x.2.2.2.1
        x.2.2.2.2.1 x.2.2.2.2.2.1 x.2.2.2.2.2.2)
    (e.names.zip (e.classes.zip (e.stats.zip (e.starsigns_equipped.zip
      (e.skill_levels.zip (e.bags_used.zip e.carrycaps))))))

/-- `Exporter.get_cards` from the source. -/
def get_cards (rd : RefData) (cards : List (String × Int)) : List (String × Int) :=
  cards.filterMap (fun p =>
    if p.2 > 0 then some (rd.monsterNames p.1, get_cardtier rd.card_reqs p.1 p.2)
    else none)

/-- `Exporter.get_stamps` from the source: stamp names zipped against levels,
category by category, then flattened. -/
def get_stamps (rd : RefData) (e : Exporter) : List (String × Int) :=
  ((rd.stampList.zip e.stamp_levels).map (fun p => p.1.zip p.2)).flatten

/-- The alchemy section of the companion document. -/
structure Alchemy where
  upgrades : List (String × List Int)
  vials : List (String × Int)
  deriving DecidableEq

/-- `Exporter.get_alchemy` from the source; indexing `cauldron[4]` raises when
the cauldron list is too short. -/
def get_alchemy (rd : RefData) (e : Exporter) : Except String Alchemy :=
  match e.cauldron[4]? with
  | none => .error "IndexError: cauldron"
  | some vialLvls =>
    .ok
      { upgrades := (["Orange", "Green", "Purple", "Yellow"]).zip (e.cauldron.take 4)
        vials := (rd.vial_names.zip vialLvls).filterMap (fun p =>
          if p.2 > 0 then some (friendly_name p.1, p.2) else none) }

/-- `Exporter.get_starsigns` from the source. -/
def get_starsigns (rd : RefData) (e : Exporter) : List (String × Bool) :=
  e.starsigns_unlocked.map (fun p => (rd.starsign_ids p.1, p.2 != 0))

/-- Maximum of a list of rationals; `none` on the empty list (Python `max(())`). -/
def listMax : List Rat → Option Rat
  | [] => none
  | a :: as => some (as.foldl max a)

/-- One aggregated statue record. -/
structure StatueRec where
  golden : Bool
  level : Rat
  progress : Int
  deriving DecidableEq

/-- `Exporter.get_statues` from the source.  The helper `zip_from_iterable`
(from `idleon_saver.utility`, not among the transformation sources) is
modelled from the spec as the transposition that regroups the per-player
statue banks per statue; per statue the level is the maximum observed level
and the progress is the floor of the maximum observed progress. -/
def get_statues (rd : RefData) (e : Exporter) :
    Except String (List (String × StatueRec)) :=
  mapE
    (fun (t : String × Int × List (List Rat)) =>
      match listMax (t.2.2.map (fun x => x.getD 0 0)),
          listMax (t.2.2.map (fun x => x.getD 1 0)) with
      | some ml, some mp =>
        .ok (t.1, { golden := t.2.1 != 0, level := ml, progress := Rat.floor mp })
      | _, _ => .error "ValueError: max of empty sequence")
    (rd.statue_names.zip (e.statues_golden.zip e.statue_levels.transpose))

/-- `Exporter.get_checklist` from the source (`from_keys_in` modelled from the
spec, see above); indexing `bags_used[0]` raises when there are no players. -/
def get_checklist (rd : RefData) (e : Exporter) : Except String (List String) :=
  match e.bags_used[0]? with
  | none => .error "IndexError: bags_used"
  | some firstBags =>
    .ok (from_keys_in rd.gem_bag_map firstBags
      ++ from_keys_in rd.storage_bag_map e.storage_used
      ++ (get_stamps rd e).filterMap (fun p => if p.2 > 0 then some p.1 else none))

/-- The companion-format document. -/
structure Companion where
  alchemy : Alchemy
  starSigns : List (String × Bool)
  cards : List (String × Int)
  stamps : List (String × Int)
  statues : List (String × StatueRec)
  checklist : List String
  chars : List PlayerRecord
  deriving DecidableEq

/-- `Exporter.to_idleon_companion` from the source; the sections are built in
the order of the Python dict literal. -/
def to_idleon_companion (rd : RefData) (e : Exporter) : Except String Companion :=
  match get_alchemy rd e with
  | .error m => .error m
  | .ok alch =>
    match get_statues rd e with
    | .error m => .error m
    | .ok sts =>
      match get_checklist rd e with
      | .error m => .error m
      | .ok cl =>
        match get_chars rd e with
        | .error m => .error m
        | .ok ch =>
          .ok
            { alchemy := alch
              starSigns := get_starsigns rd e
              cards := get_cards rd e.cards
              stamps := (get_stamps rd e).filter (fun p => p.2 > 0)
              statues := sts
              checklist := cl
              chars := ch }

/-- `Exporter.to_cogstruction` from the source: the non-blank cog rows plus
the empty-slot coordinates (the failing length check aborts the whole build). -/
def to_cogstruction (rd : RefData) (e : Exporter) :
    Except String (List CogRow × List (Nat × Nat)) :=
  match get_empties e.cog_order with
  | .error msg => .error msg
  | .ok empties =>
    .ok ((e.cog_map.zip e.cog_order).filterMap (fun p => get_cog_data rd p.1 p.2),
      empties)

/-! ## Specification-side reformulations (written from the spec text) -/

/-- The card tier exactly as the spec words it: 0 if the level is 0, 4 from
nine requirements, 3 from four requirements, 2 from one requirement, else 1. -/
def tier_spec (req level : Int) : Int :=
  if level = 0 then 0
  else if 9 * req ≤ level then 4
  else if 4 * req ≤ level then 3
  else if req ≤ level then 2
  else 1

/-- The empty-slot rows as the spec words them, restricted to the 96 board
positions: for every blank slot at linear position `i`, the pair
`(i mod 12, i div 12)`. -/
def empties_spec (cogs : List String) : List (Nat × Nat) :=
  (List.range 96).filterMap (fun i =>
    if cogs.getD i "" = "Blank" then some (i % 12, i / 12) else none)

/-- Constellation completion as the spec words it: a constellation is marked
for code character `c` exactly when `c` occurs in its recorded completion
string, an absent (null) or empty string matching nobody. -/
def constellations_spec (rd : RefData) (c : Char)
    (prog : List (Option String × Int)) : List String :=
  prog.enum.filterMap (fun p =>
    if strHas (p.2.1.getD "") c then some (rd.constellation_names p.1) else none)

/-! ## Concrete sample data used by witnesses and counterexamples -/

/-- A small concrete instance of the external reference tables. -/
def rd0 : RefData where
  class_names := fun i => if i = 1 then "beginner" else if i = 2 then "journeyman" else "classless"
  card_reqs := fun _ => 3
  monsterNames := fun n => n
  pouch_names := fun t => t
  pouch_sizes := fun s => if s = 50 then "Large" else "Small"
  cog_type_map := [("D", "Down")]
  cog_datas_map := [("a", "build_rate"), ("b", "flaggy_rate")]
  cog_boosts := ["a"]
  constellation_names := fun i => if i = 0 then "C0" else "Cn"
  vial_names := []
  starsign_names := fun _ => "sign"
  starsign_ids := fun s => s
  skill_names := []
  statue_names := []
  stampList := []
  gem_bag_map := []
  storage_bag_map := []
  inv_bag_map := []

/-- A save state with 28 players all named `"p"` and an empty starsign
progression list. -/
def e28 : Exporter where
  names := List.replicate 28 "p"
  classes := List.replicate 28 0
  skill_levels := List.replicate 28 []
  statue_levels := []
  bags_used := List.replicate 28 []
  carrycaps := List.replicate 28 []
  stats := List.replicate 28 [0, 0, 0, 0, 1]
  cauldron := [[], [], [], [], []]
  starsigns_unlocked := []
  starsigns_prog := []
  starsigns_equipped := List.replicate 28 "0"
  cards := []
  stamp_levels := []
  statues_golden := []
  cog_map := []
  cog_order := []
  storage_used := []

/-- 28 pairwise distinct player names. -/
def names28 : List String :=
  ["q00", "q01", "q02", "q03", "q04", "q05", "q06", "q07", "q08", "q09",
   "q10", "q11", "q12", "q13", "q14", "q15", "q16", "q17", "q18", "q19",
   "q20", "q21", "q22", "q23", "q24", "q25", "q26", "q27"]

/-- A save state with 28 distinctly named players and a nonempty starsign
progression list. -/
def e28d : Exporter :=
  { e28 with names := names28, starsigns_prog := [(some "_a", 1)] }

/-- A save state whose cog board list is empty. -/
def eNoCogs : Exporter := { e28 with cog_order := [], cog_map := [] }

/-- The companion chars section length when it builds successfully (used to
state counterexamples without binders). -/
def okLength (x : Except String (List PlayerRecord)) : Option Nat :=
  match x with
  | .ok l => some l.length
  | .error _ => none

/-- The name field of an optional cog row. -/
def rowName (x : Option CogRow) : Option String := x.map (fun r => r.name)

/-- The empty-slot list of a successful `get_empties` run, `[]` on failure. -/
def emptiesOf (cogs : List String) : List (Nat × Nat) :=
  match get_empties cogs with
  | .ok l => l
  | .error _ => []

/-- Whether `get_empties` failed. -/
def emptiesFailed (cogs : List String) : Bool :=
  match get_empties cogs with
  | .ok _ => false
  | .error _ => true

/-- A sample cog bonus map for witnesses: key `"a"` holds 500, others absent. -/
def cogSample : String → Option Rat := fun k => if k = "a" then some 500 else none

/-! ## Helper lemmas -/

lemma lookupLast_eq_none {α : Type} (l : List (String × α)) (k : String)
    (h : k ∉ l.map Prod.fst) : lookupLast l k = none := by
  induction l with
  | nil => rfl
  | cons p rest ih =>
    simp only [List.map_cons, List.mem_cons, not_or] at h
    simp only [lookupLast, ih h.2]
    exact if_neg (fun he => h.1 he.symm)

lemma mem_take_of_mem_zip_keys {α : Type} :
    ∀ (ns : List String) (cs : List α) (k : String),
      k ∈ (ns.zip cs).map Prod.fst → k ∈ ns.take cs.length
  | [], _, _, h => by simp [List.zip] at h
  | _ :: _, [], _, h => by simp [List.zip] at h
  | n :: ns, c :: cs, k, h => by
    simp only [List.zip_cons_cons, List.map_cons, List.mem_cons] at h
    rcases h with h | h
    · simp [h]
    · simpa using Or.inr (mem_take_of_mem_zip_keys ns cs k h)

lemma lookupLast_zip_nodup {α : Type} :
    ∀ (ns : List String) (cs : List α) (i : Nat) (d : String) (d2 : α),
      ns.Nodup → i < ns.length → i < cs.length →
      lookupLast (ns.zip cs) (ns.getD i d) = some (cs.getD i d2)
  | [], _, i, _, _, _, hi, _ => absurd hi (by simp)
  | _ :: _, [], i, _, _, _, _, hc => absurd hc (by simp)
  | n :: ns, c :: cs, 0, d, d2, hn, _, _ => by
    have hkeys : n ∉ (ns.zip cs).map Prod.fst := by
      intro hmem
      exact (List.nodup_cons.mp hn).1
        ((ns.take_sublist cs.length).mem (mem_take_of_mem_zip_keys ns cs n hmem))
    simp only [List.zip_cons_cons, List.getD_cons_zero]
    simp [lookupLast, lookupLast_eq_none _ _ hkeys]
  | n :: ns, c :: cs, i + 1, d, d2, hn, hi, hc => by
    have ih := lookupLast_zip_nodup ns cs i d d2 (List.nodup_cons.mp hn).2
      (by simpa using hi) (by simpa using hc)
    have hmem : ns.getD i d ∈ (ns.zip cs).map Prod.fst := by
      by_contra hab
      rw [lookupLast_eq_none _ _ hab] at ih
      exact Option.noConfusion ih
    simp only [List.zip_cons_cons, List.getD_cons_succ]
    simp only [lookupLast, ih]

lemma charsLead_cons_iff (p c : Char) (ps cs : List Char) :
    charsLead (p :: ps) (c :: cs) = true ↔ p = c ∧ charsLead ps cs = true := by
  simp [charsLead, Bool.and_eq_true, decide_eq_true_iff]

lemma charsLead_cons_ex (p : Char) (ps l : List Char)
    (h : charsLead (p :: ps) l = true) :
    ∃ t, l = p :: t ∧ charsLead ps t = true := by
  cases l with
  | nil => exact absurd h (by simp [charsLead])
  | cons c cs =>
    obtain ⟨he, hc⟩ := (charsLead_cons_iff p c ps cs).mp h
    exact ⟨cs, by rw [he], hc⟩

lemma strLead_head_eq (p s : String) (c : Char) (cr : List Char)
    (hp : p.toList = c :: cr) (h : strLead p s = true) :
    ∃ t, s.toList = c :: t := by
  unfold strLead at h
  rw [hp] at h
  obtain ⟨t, ht, _⟩ := charsLead_cons_ex c cr s.toList h
  exact ⟨t, ht⟩

lemma not_strLead_of_head_ne (p q s : String) (c c2 : Char)
    (cr cr2 : List Char) (hp : p.toList = c :: cr) (hq : q.toList = c2 :: cr2)
    (hne : c ≠ c2) (h : strLead p s = true) : strLead q s = false := by
  rcases hb : strLead q s with _ | _
  · rfl
  · obtain ⟨t, ht⟩ := strLead_head_eq p s c cr hp h
    obtain ⟨t2, ht2⟩ := strLead_head_eq q s c2 cr2 hq hb
    rw [ht] at ht2
    exact absurd (List.head_eq_of_cons_eq ht2) hne

lemma string_ne_of_strLead (p s other : String) (h : strLead p s = true)
    (hno : strLead p other = false) : s ≠ other := by
  intro he
  rw [he, hno] at h
  exact Bool.noConfusion h

lemma append_cog_ne_character (t : String) : t ++ "_Cog" ≠ "Character" := by
  intro h
  have hd := congrArg String.data h
  rw [String.data_append] at hd
  have hlast := congrArg List.getLast? hd
  rw [List.getLast?_append] at hlast
  have h1 : ("_Cog".data.getLast?).or (t.data.getLast?) = some 'g' := by
    have h0 : "_Cog".data.getLast? = some 'g' := by decide
    rw [h0]
    rfl
  rw [h1] at hlast
  have h2 : "Character".data.getLast? = some 'r' := by decide
  rw [h2] at hlast
  exact absurd (Option.some.inj hlast) (by decide)

lemma get_cog_type_blank (ctm : List (String × String)) :
    get_cog_type ctm "Blank" = none := by
  unfold get_cog_type
  rw [if_pos rfl]

lemma get_cog_type_player (ctm : List (String × String)) (name : String)
    (h : strLead "Player_" name = true) :
    get_cog_type ctm name = some "Character" := by
  have hb : name ≠ "Blank" := string_ne_of_strLead "Player_" name "Blank" h (by decide)
  unfold get_cog_type
  rw [if_neg hb, if_pos h]

lemma get_cog_type_cogy (ctm : List (String × String)) :
    get_cog_type ctm "CogY" = some "Yang_Cog" := by
  unfold get_cog_type
  rw [if_neg (by decide), if_neg (by decide), if_pos rfl]

lemma get_cog_type_omni (ctm : List (String × String)) (name : String)
    (h : strLead "CogZ" name = true) :
    get_cog_type ctm name = some "Omni_Cog" := by
  have hb : name ≠ "Blank" := string_ne_of_strLead "CogZ" name "Blank" h (by decide)
  have hy : name ≠ "CogY" := string_ne_of_strLead "CogZ" name "CogY" h (by decide)
  have hp : strLead "Player_" name = false :=
    not_strLead_of_head_ne "CogZ" "Player_" name 'C' 'P' ['o', 'g', 'Z']
      ['l', 'a', 'y', 'e', 'r', '_'] (by decide) (by decide) (by decide) h
  unfold get_cog_type
  rw [if_neg hb, if_neg (by simp [hp]), if_neg hy, if_pos h]

lemma get_cog_type_rest (ctm : List (String × String)) (name : String)
    (h1 : name ≠ "Blank") (h2 : strLead "Player_" name = false)
    (h3 : name ≠ "CogY") (h4 : strLead "CogZ" name = false) :
    get_cog_type ctm name =
      (match findDirectional ctm name with
       | some t => some (t ++ "_Cog")
       | none => some "Cog") := by
  unfold get_cog_type
  rw [if_neg h1, if_neg (by simp [h2]), if_neg h3, if_neg (by simp [h4])]

lemma get_cog_type_isSome (ctm : List (String × String)) (name : String)
    (h : name ≠ "Blank") : ∃ t, get_cog_type ctm name = some t := by
  cases hp : strLead "Player_" name with
  | true => exact ⟨_, get_cog_type_player ctm name hp⟩
  | false =>
    by_cases hy : name = "CogY"
    · exact ⟨_, by rw [hy, get_cog_type_cogy]⟩
    · cases hz : strLead "CogZ" name with
      | true => exact ⟨_, get_cog_type_omni ctm name hz⟩
      | false =>
        rw [get_cog_type_rest ctm name h hp hy hz]
        cases hf : findDirectional ctm name with
        | some t => exact ⟨t ++ "_Cog", rfl⟩
        | none => exact ⟨"Cog", rfl⟩

lemma character_iff (ctm : List (String × String)) (name : String)
    (h : name ≠ "Blank") :
    get_cog_type ctm name = some "Character" ↔ strLead "Player_" name = true := by
  constructor
  · intro hct
    cases hp : strLead "Player_" name with
    | true => rfl
    | false =>
      exfalso
      by_cases hy : name = "CogY"
      · rw [hy, get_cog_type_cogy] at hct
        exact absurd (Option.some.inj hct) (by decide)
      · cases hz : strLead "CogZ" name with
        | true =>
          rw [get_cog_type_omni ctm name hz] at hct
          exact absurd (Option.some.inj hct) (by decide)
        | false =>
          rw [get_cog_type_rest ctm name h hp hy hz] at hct
          cases hf : findDirectional ctm name with
          | some t =>
            rw [hf] at hct
            exact append_cog_ne_character t (Option.some.inj hct)
          | none =>
            rw [hf] at hct
            exact absurd (Option.some.inj hct) (by decide)
  · exact get_cog_type_player ctm name

lemma gpc_aux_eq (rd : RefData) (cm : List (String × Char)) (charname : String)
    (c : Char) (hc : lookupLast cm charname = some c) :
    ∀ (i : Nat) (prog : List (Option String × Int)),
      gpc_aux rd cm charname i prog =
        .ok ((List.enumFrom i prog).filterMap (fun p =>
          if strHas (p.2.1.getD "") c then some (rd.constellation_names p.1)
          else none))
  | _, [] => rfl
  | i, (chars, comp) :: rest => by
    have ih := gpc_aux_eq rd cm charname c hc (i + 1) rest
    simp only [gpc_aux, hc, ih, List.enumFrom, List.filterMap_cons]
    by_cases hh : strHas (chars.getD "") c = true
    · simp [hh]
    · simp [hh]

lemma mapE_error_of_mem {α β : Type} (f : α → Except String β) (l : List α)
    (x : α) (msg : String) (hx : x ∈ l) (hf : f x = .error msg) :
    ∃ m, mapE f l = .error m := by
  induction l with
  | nil => cases hx
  | cons a as ih =>
    rcases List.mem_cons.mp hx with he | hmem
    · subst he
      exact ⟨msg, by simp [mapE, hf]⟩
    · cases hfa : f a with
      | error e => exact ⟨e, by simp [mapE, hfa]⟩
      | ok b =>
        obtain ⟨m, hm⟩ := ih hmem
        exact ⟨m, by simp [mapE, hfa, hm]⟩

lemma empties_ok (cogs : List String) (h : ¬ cogs.length < 96) :
    get_empties cogs = .ok (empties_spec cogs) := by
  unfold get_empties
  rw [if_neg h]
  congr 1
  symm
  unfold empties_spec
  have h96 : List.range 96 =
      (List.range 8).flatMap (fun y => (List.range 12).map (fun x => y * 12 + x)) := by
    decide
  rw [h96, List.filterMap_flatMap]
  apply List.flatMap_congr
  intro y _
  rw [List.filterMap_map]
  apply List.filterMap_congr
  intro x hx
  have hxlt : x < 12 := List.mem_range.mp hx
  have hmod : (y * 12 + x) % 12 = x := by omega
  have hdiv : (y * 12 + x) / 12 = y := by omega
  simp only [Function.comp_apply, hmod, hdiv]

lemma empties_spec_nodup (cogs : List String) : (empties_spec cogs).Nodup := by
  unfold empties_spec
  refine List.Nodup.filterMap ?_ (List.nodup_range 96)
  intro a a2 b hb hb2
  by_cases ha : cogs.getD a "" = "Blank"
  · rw [if_pos ha] at hb
    by_cases ha2 : cogs.getD a2 "" = "Blank"
    · rw [if_pos ha2] at hb2
      have h1 : (a % 12, a / 12) = b := by simpa using hb
      have h2 : (a2 % 12, a2 / 12) = b := by simpa using hb2
      have h3 := h1.trans h2.symm
      have hm : a % 12 = a2 % 12 := ((Prod.mk.injEq _ _ _ _).mp h3).1
      have hd : a / 12 = a2 / 12 := ((Prod.mk.injEq _ _ _ _).mp h3).2
      omega
    · rw [if_neg ha2] at hb2
      exact absurd hb2 (by simp)
  · rw [if_neg ha] at hb
    exact absurd hb (by simp)

lemma empties_spec_mem (cogs : List String) (i : Nat) (h1 : i < 96)
    (h2 : cogs.getD i "" = "Blank") : (i % 12, i / 12) ∈ empties_spec cogs := by
  unfold empties_spec
  exact List.mem_filterMap.mpr ⟨i, List.mem_range.mpr h1, by rw [if_pos h2]⟩

lemma getElem_not_mem_take {α : Type} (l : List α) (n : Nat) (hn : l.Nodup)
    (h : n < l.length) : l[n] ∉ l.take n := by
  intro hmem
  obtain ⟨i, hi, hieq⟩ := List.mem_iff_getElem.mp hmem
  rw [List.getElem_take] at hieq
  have hlen : i < n := by
    simp only [List.length_take] at hi
    omega
  have hin : i = n := (List.Nodup.getElem_inj_iff hn).mp hieq
  omega

lemma char_map_28th_none (names : List String) (hn : names.Nodup)
    (h : 28 ≤ names.length) :
    lookupLast (char_map names) (names.getD 27 "") = none := by
  apply lookupLast_eq_none
  intro hmem
  have ht := mem_take_of_mem_zip_keys names sentinelCodes.toList _ hmem
  have hlen : sentinelCodes.toList.length = 27 := by decide
  rw [hlen] at ht
  have h27 : 27 < names.length := by omega
  rw [List.getD_eq_getElem names "" h27] at ht
  exact getElem_not_mem_take names 27 hn h27 ht

lemma filterMap_ite_eq_map_filter {a b : Type} (g : a -> b) (q : a -> Prop)
    [DecidablePred q] (l : List a) :
    l.filterMap (fun x => if q x then some (g x) else none) =
      (l.filter (fun x => decide (q x))).map g := by
  induction l with
  | nil => rfl
  | cons x xs ih =>
    by_cases h : q x
    . simp [List.filter_cons, h, ih]
    . simp [List.filter_cons, h, ih]

/-! ## Claim theorems -/

/-- Claim C4: for every cog-board list with fewer than 96 entries, building
the cogstruction representation fails with the insufficient-data error,
regardless of the entries, and no empty-slot rows are produced. -/
theorem c4_insufficient (rd : RefData) (e : Exporter)
    (h : e.cog_order.length < 96) :
    (∀ l, get_empties e.cog_order ≠ .ok l) ∧
    get_empties e.cog_order =
      .error "cog list must contain at least 96 entries to cover the whole cog board" ∧
    (∀ out, to_cogstruction rd e ≠ .ok out) ∧
    to_cogstruction rd e =
      .error "cog list must contain at least 96 entries to cover the whole cog board" := by
  have he : get_empties e.cog_order =
      .error "cog list must contain at least 96 entries to cover the whole cog board" := by
    unfold get_empties
    rw [if_pos h]
  have hc : to_cogstruction rd e =
      .error "cog list must contain at least 96 entries to cover the whole cog board" := by
    unfold to_cogstruction
    rw [he]
  refine ⟨?_, he, ?_, hc⟩
  · intro l hl
    rw [he] at hl
    exact Except.noConfusion hl
  · intro out hout
    rw [hc] at hout
    exact Except.noConfusion hout

/-- Witness for C4 at a concrete empty cog board. -/
theorem c4_witness :
    to_cogstruction rd0 eNoCogs =
      .error "cog list must contain at least 96 entries to cover the whole cog board" :=
  (c4_insufficient rd0 eNoCogs (by decide)).2.2.2

/-- Claim C9: the export transformation is a deterministic function of the
save input alone — two runs on the same input build identical structures in
both formats. -/
theorem c9_deterministic (rd : RefData) (e1 e2 : Exporter) (h : e1 = e2) :
    to_idleon_companion rd e1 = to_idleon_companion rd e2 ∧
    to_cogstruction rd e1 = to_cogstruction rd e2 := by
  subst h
  exact ⟨rfl, rfl⟩

/-- Witness for C9 at a concrete save state. -/
theorem c9_witness :
    to_idleon_companion rd0 e28 = to_idleon_companion rd0 e28 ∧
    to_cogstruction rd0 e28 = to_cogstruction rd0 e28 :=
  c9_deterministic rd0 e28 e28 rfl

/-- Claim C6: the companion cards mapping holds exactly the cards with
positive level, each display name mapped to the spec tier (0 at level 0; 4
from nine requirements; 3 from four; 2 from one; else 1). -/
theorem c6_cards (rd : RefData) (cards : List (String × Int)) (name : String)
    (level : Int) :
    get_cardtier rd.card_reqs name level = tier_spec (rd.card_reqs name) level ∧
    get_cards rd cards = (cards.filter (fun p => 0 < p.2)).map
      (fun p => (rd.monsterNames p.1, get_cardtier rd.card_reqs p.1 p.2)) ∧
    (∀ nm lv, (nm, lv) ∈ cards → 0 < lv →
      (rd.monsterNames nm, tier_spec (rd.card_reqs nm) lv) ∈ get_cards rd cards) ∧
    (∀ p, p ∈ get_cards rd cards →
      ∃ nm lv, (nm, lv) ∈ cards ∧ 0 < lv ∧
        p = (rd.monsterNames nm, get_cardtier rd.card_reqs nm lv)) := by
  have htier : ∀ nm lv,
      get_cardtier rd.card_reqs nm lv = tier_spec (rd.card_reqs nm) lv := by
    intro nm lv
    unfold get_cardtier tier_spec
    rw [Int.mul_comm (rd.card_reqs nm) 9, Int.mul_comm (rd.card_reqs nm) 4]
  have hmain : get_cards rd cards = (cards.filter (fun p => 0 < p.2)).map
      (fun p => (rd.monsterNames p.1, get_cardtier rd.card_reqs p.1 p.2)) := by
    unfold get_cards
    exact filterMap_ite_eq_map_filter
      (fun p => (rd.monsterNames p.1, get_cardtier rd.card_reqs p.1 p.2))
      (fun p => 0 < p.2) cards
  refine ⟨htier name level, hmain, ?_, ?_⟩
  · intro nm lv hmem hpos
    rw [hmain, ← htier nm lv]
    exact List.mem_map_of_mem _ (List.mem_filter.mpr ⟨hmem, by simpa using hpos⟩)
  · intro p hp
    rw [hmain] at hp
    obtain ⟨q, hq, hpe⟩ := List.mem_map.mp hp
    have hqf := List.mem_filter.mp hq
    exact ⟨q.1, q.2, hqf.1, by simpa using hqf.2, hpe.symm⟩

/-- Witness for C6 at a concrete card list. -/
theorem c6_witness :
    (rd0.monsterNames "frog", tier_spec (rd0.card_reqs "frog") 5) ∈
      get_cards rd0 [("frog", 5), ("slime", 0)] :=
  (c6_cards rd0 [("frog", 5), ("slime", 0)] "frog" 5).2.2.1 "frog" 5
    (by decide) (by decide)

/-- Claim C8: the items mapping carries one pouch entry per carry-capacity
category with stack size above 10 and none otherwise; pouch names join the
size qualifier, the category display name and "Pouch", the qualifier being
the size-table lookup except the crafting-bag and food overrides at size 25. -/
theorem c8_pouches (rd : RefData) (caps : List (String × Int)) (t : String)
    (s : Int) :
    get_pouchsize rd.pouch_sizes "bCraft" 25 = "Mini" ∧
    get_pouchsize rd.pouch_sizes "Foods" 25 = "Miniscule" ∧
    (¬(s = 25 ∧ (t = "bCraft" ∨ t = "Foods")) →
      get_pouchsize rd.pouch_sizes t s = rd.pouch_sizes s) ∧
    get_pouches rd.pouch_names rd.pouch_sizes caps =
      (caps.filter (fun p => 10 < p.2)).map (fun p =>
        String.intercalate " "
          [get_pouchsize rd.pouch_sizes p.1 p.2, rd.pouch_names p.1, "Pouch"]) ∧
    (∀ ty sz, (ty, sz) ∈ caps → 10 < sz →
      String.intercalate " "
          [get_pouchsize rd.pouch_sizes ty sz, rd.pouch_names ty, "Pouch"] ∈
        get_pouches rd.pouch_names rd.pouch_sizes caps) ∧
    (∀ x, x ∈ get_pouches rd.pouch_names rd.pouch_sizes caps →
      ∃ ty sz, (ty, sz) ∈ caps ∧ 10 < sz ∧
        x = String.intercalate " "
          [get_pouchsize rd.pouch_sizes ty sz, rd.pouch_names ty, "Pouch"]) ∧
    (∀ (names : List String) (prog : List (Option String × Int)) (nm : String)
        (klass : Int) (stats : List Int) (ssg : String) (skills : List Int)
        (bags : List String) (pr : PlayerRecord),
      build_char rd names prog nm klass stats ssg skills bags caps = .ok pr →
      pr.items = from_keys_in rd.inv_bag_map bags
        ++ get_pouches rd.pouch_names rd.pouch_sizes caps) := by
  have hmain : get_pouches rd.pouch_names rd.pouch_sizes caps =
      (caps.filter (fun p => 10 < p.2)).map (fun p =>
        String.intercalate " "
          [get_pouchsize rd.pouch_sizes p.1 p.2, rd.pouch_names p.1, "Pouch"]) := by
    unfold get_pouches
    exact filterMap_ite_eq_map_filter
      (fun p => String.intercalate " "
        [get_pouchsize rd.pouch_sizes p.1 p.2, rd.pouch_names p.1, "Pouch"])
      (fun p => 10 < p.2) caps
  have hfoods : get_pouchsize rd.pouch_sizes "Foods" 25 = "Miniscule" := by
    unfold get_pouchsize
    rw [if_neg (fun hx => absurd hx.2 (by decide)), if_pos ⟨rfl, rfl⟩]
  have hcraft : get_pouchsize rd.pouch_sizes "bCraft" 25 = "Mini" := by
    unfold get_pouchsize
    rw [if_pos ⟨rfl, rfl⟩]
  refine ⟨hcraft, hfoods, ?_, hmain, ?_, ?_, ?_⟩
  · intro h
    unfold get_pouchsize
    rw [if_neg (fun hx => h ⟨hx.1, Or.inl hx.2⟩), if_neg (fun hx => h ⟨hx.1, Or.inr hx.2⟩)]
  · intro ty sz hmem hpos
    rw [hmain]
    exact List.mem_map_of_mem _ (List.mem_filter.mpr ⟨hmem, by simpa using hpos⟩)
  · intro x hx
    rw [hmain] at hx
    obtain ⟨q, hq, hxe⟩ := List.mem_map.mp hx
    have hqf := List.mem_filter.mp hq
    exact ⟨q.1, q.2, hqf.1, by simpa using hqf.2, hxe.symm⟩
  · intro names prog nm klass stats ssg skills bags pr hok
    unfold build_char at hok
    rcases h4 : stats[4]? with _ | lvl
    · rw [h4] at hok
      exact Except.noConfusion hok
    · rw [h4] at hok
      rcases hg : get_player_constellations rd names prog nm with msg | cs
      · rw [hg] at hok
        exact Except.noConfusion hok
      · rw [hg] at hok
        rcases hs : parse_player_starsigns rd ssg with msg | ss
        · rw [hs] at hok
          exact Except.noConfusion hok
        · rw [hs] at hok
          have hpr := Except.ok.inj hok
          rw [← hpr]

/-- Witness for C8 at a concrete carry-capacity map. -/
theorem c8_witness :
    get_pouchsize rd0.pouch_sizes "gems" 50 = rd0.pouch_sizes 50 ∧
    String.intercalate " "
        [get_pouchsize rd0.pouch_sizes "gems" 50, rd0.pouch_names "gems", "Pouch"] ∈
      get_pouches rd0.pouch_names rd0.pouch_sizes
        [("bCraft", 25), ("gems", 50), ("arrows", 10)] :=
  ⟨(c8_pouches rd0 [] "gems" 50).2.2.1 (by decide),
    (c8_pouches rd0 [("bCraft", 25), ("gems", 50), ("arrows", 10)] "gems" 50).2.2.2.2.1
      "gems" 50 (by decide) (by decide)⟩

/-- Claim C3: cog names are classified in priority order — the blank marker
yields no row, a player-slot prefixed name yields the Character type, the
reserved name CogY the Yang type, a CogZ-prefixed name the Omni type, then
the first matching directional suffix yields its mapped directional cog type,
and otherwise the type is the plain Cog. -/
theorem c3_classification (rd : RefData) (cog : String → Option Rat)
    (ctm : List (String × String)) (name : String) :
    get_cog_type ctm "Blank" = none ∧
    get_cog_data rd cog "Blank" = none ∧
    (strLead "Player_" name = true → get_cog_type ctm name = some "Character") ∧
    get_cog_type ctm "CogY" = some "Yang_Cog" ∧
    (strLead "CogZ" name = true → get_cog_type ctm name = some "Omni_Cog") ∧
    (name ≠ "Blank" → strLead "Player_" name = false → name ≠ "CogY" →
      strLead "CogZ" name = false →
      (∀ t, findDirectional ctm name = some t →
        get_cog_type ctm name = some (t ++ "_Cog")) ∧
      (findDirectional ctm name = none → get_cog_type ctm name = some "Cog")) := by
  refine ⟨get_cog_type_blank ctm, ?_, get_cog_type_player ctm name,
    get_cog_type_cogy ctm, get_cog_type_omni ctm name, ?_⟩
  · unfold get_cog_data
    rw [get_cog_type_blank]
  · intro h1 h2 h3 h4
    constructor
    · intro t hf
      rw [get_cog_type_rest ctm name h1 h2 h3 h4, hf]
    · intro hf
      rw [get_cog_type_rest ctm name h1 h2 h3 h4, hf]

/-- Witness for C3 at concrete cog names of each classification branch. -/
theorem c3_witness :
    get_cog_type rd0.cog_type_map "Player_Alice" = some "Character" ∧
    get_cog_type rd0.cog_type_map "CogZfoo" = some "Omni_Cog" ∧
    get_cog_type rd0.cog_type_map "WeeCogD" = some ("Down" ++ "_Cog") ∧
    get_cog_type rd0.cog_type_map "Gear" = some "Cog" := by
  refine ⟨(c3_classification rd0 cogSample rd0.cog_type_map "Player_Alice").2.2.1
      (by decide),
    (c3_classification rd0 cogSample rd0.cog_type_map "CogZfoo").2.2.2.2.1
      (by decide),
    ((c3_classification rd0 cogSample rd0.cog_type_map "WeeCogD").2.2.2.2.2
      (by decide) (by decide) (by decide) (by decide)).1 "Down" (by decide),
    ((c3_classification rd0 cogSample rd0.cog_type_map "Gear").2.2.2.2.2
      (by decide) (by decide) (by decide) (by decide)).2 (by decide)⟩

/-- Claim C2 counterexample: a regular (non-Character) cog named "FooCog"
gets a blank name field, not its own name, in the cogstruction row. -/
theorem c2_counterexample :
    rowName (get_cog_data rd0 (fun _ => none) "FooCog") = some "" ∧
    some "FooCog" ≠ rowName (get_cog_data rd0 (fun _ => none) "FooCog") := by
  decide

/-- Claim C2 (amended): every non-blank cog yields a row carrying the
classified type; the name field is the remainder after stripping the
player-slot prefix for Character cogs and is blank for every other cog; the
row has every known bonus field, boosts holding the raw value divided by 100
and absent fields holding a blank value rather than raising. -/
theorem c2_cog_rows (rd : RefData) (cog : String → Option Rat) (name : String)
    (h : name ≠ "Blank") :
    ∃ row, get_cog_data rd cog name = some row ∧
      some row.cog_type = get_cog_type rd.cog_type_map name ∧
      row.name = (if strLead "Player_" name then removePre "Player_" name else "") ∧
      row.fields.map Prod.fst = rd.cog_datas_map.map Prod.snd ∧
      (∀ key field, (key, field) ∈ rd.cog_datas_map →
        (cog key = none → (field, none) ∈ row.fields) ∧
        (∀ v, cog key = some v → key ∈ rd.cog_boosts →
          (field, some (v / 100)) ∈ row.fields) ∧
        (∀ v, cog key = some v → key ∉ rd.cog_boosts →
          (field, some v) ∈ row.fields)) := by
  obtain ⟨ct, hct⟩ := get_cog_type_isSome rd.cog_type_map name h
  refine ⟨{ cog_type := ct
            name := if ct = "Character" then removePre "Player_" name else ""
            fields := rd.cog_datas_map.map (fun kf =>
              (kf.2,
                match cog kf.1 with
                | none => none
                | some v => some (if kf.1 ∈ rd.cog_boosts then v / 100 else v))) },
    ?_, ?_, ?_, ?_, ?_⟩
  · unfold get_cog_data
    rw [hct]
  · rw [hct]
  · by_cases hp : strLead "Player_" name = true
    · have hchar : ct = "Character" := by
        have hcc := (character_iff rd.cog_type_map name h).mpr hp
        rw [hct] at hcc
        exact Option.some.inj hcc
      rw [hchar]
      simp [hp]
    · have hb : strLead "Player_" name = false := by
        cases hq : strLead "Player_" name
        · rfl
        · exact absurd hq hp
      have hchar : ct ≠ "Character" := by
        intro he
        rw [he] at hct
        exact hp ((character_iff rd.cog_type_map name h).mp hct)
      rw [if_neg hchar]
      simp [hb]
  · rw [List.map_map]
    exact List.map_congr_left (fun kf _ => rfl)
  · intro key field hmem
    refine ⟨?_, ?_, ?_⟩
    · intro hk
      have hmm := List.mem_map_of_mem (fun kf =>
        ((kf : String × String).2,
          (match cog kf.1 with
           | none => none
           | some v => some (if kf.1 ∈ rd.cog_boosts then v / 100 else v) :
            Option Rat))) hmem
      simpa [hk] using hmm
    · intro v hk hb
      have hmm := List.mem_map_of_mem (fun kf =>
        ((kf : String × String).2,
          (match cog kf.1 with
           | none => none
           | some v => some (if kf.1 ∈ rd.cog_boosts then v / 100 else v) :
            Option Rat))) hmem
      simpa [hk, hb] using hmm
    · intro v hk hb
      have hmm := List.mem_map_of_mem (fun kf =>
        ((kf : String × String).2,
          (match cog kf.1 with
           | none => none
           | some v => some (if kf.1 ∈ rd.cog_boosts then v / 100 else v) :
            Option Rat))) hmem
      simpa [hk, hb] using hmm

/-- Witness for C2 at a concrete Character cog with one boost field present
and one bonus field absent. -/
theorem c2_witness :
    ∃ row, get_cog_data rd0 cogSample "Player_Alice" = some row ∧
      some row.cog_type = get_cog_type rd0.cog_type_map "Player_Alice" ∧
      row.name = (if strLead "Player_" "Player_Alice"
        then removePre "Player_" "Player_Alice" else "") ∧
      row.fields.map Prod.fst = rd0.cog_datas_map.map Prod.snd ∧
      (∀ key field, (key, field) ∈ rd0.cog_datas_map →
        (cogSample key = none → (field, none) ∈ row.fields) ∧
        (∀ v, cogSample key = some v → key ∈ rd0.cog_boosts →
          (field, some (v / 100)) ∈ row.fields) ∧
        (∀ v, cogSample key = some v → key ∉ rd0.cog_boosts →
          (field, some v) ∈ row.fields)) :=
  c2_cog_rows rd0 cogSample "Player_Alice" (by decide)

set_option maxRecDepth 4096 in
/-- Claim C5 counterexample: a 97-slot all-blank board has a blank slot at
position 96, yet the build succeeds with only 96 coordinate pairs and no pair
for that slot — so not every blank slot gets a pair once the board exceeds 96
slots. -/
theorem c5_counterexample :
    96 ≤ (List.replicate 97 "Blank").length ∧
    (List.replicate 97 "Blank").getD 96 "" = "Blank" ∧
    emptiesFailed (List.replicate 97 "Blank") = false ∧
    (emptiesOf (List.replicate 97 "Blank")).length = 96 ∧
    ((96 % 12 : Nat), (96 / 12 : Nat)) ∉ emptiesOf (List.replicate 97 "Blank") := by
  decide

/-- Claim C5 (amended): for a board with at least 96 slots the empty-slot
rows are exactly one `(position mod 12, position div 12)` pair for every
blank slot among the first 96 positions, without duplicates; in particular
the 96-slot all-blank board yields all 96 coordinate pairs, each exactly
once. -/
theorem c5_empties (cogs : List String) (h : 96 ≤ cogs.length) :
    get_empties cogs = .ok (empties_spec cogs) ∧
    (empties_spec cogs).Nodup ∧
    (∀ i, i < 96 → cogs.getD i "" = "Blank" →
      (i % 12, i / 12) ∈ empties_spec cogs) ∧
    (∀ pr, pr ∈ empties_spec cogs →
      ∃ i, i < 96 ∧ cogs.getD i "" = "Blank" ∧ pr = (i % 12, i / 12)) ∧
    (empties_spec (List.replicate 96 "Blank")).length = 96 ∧
    (empties_spec (List.replicate 96 "Blank")).Nodup ∧
    (∀ x y, x < 12 → y < 8 →
      (x, y) ∈ empties_spec (List.replicate 96 "Blank")) := by
  refine ⟨empties_ok cogs (by omega), empties_spec_nodup cogs, ?_, ?_,
    by decide, empties_spec_nodup _, ?_⟩
  · intro i h1 h2
    exact empties_spec_mem cogs i h1 h2
  · intro pr hpr
    unfold empties_spec at hpr
    obtain ⟨i, hi, hieq⟩ := List.mem_filterMap.mp hpr
    by_cases hb : cogs.getD i "" = "Blank"
    · rw [if_pos hb] at hieq
      exact ⟨i, List.mem_range.mp hi, hb, (Option.some.inj hieq).symm⟩
    · rw [if_neg hb] at hieq
      exact Option.noConfusion hieq
  · intro x y hx hy
    have hi : y * 12 + x < 96 := by omega
    have hb : (List.replicate 96 "Blank").getD (y * 12 + x) "" = "Blank" := by
      rw [List.getD_eq_getElem _ "" (by simpa using hi)]
      exact List.getElem_replicate "Blank" (by simpa using hi)
    have hmem := empties_spec_mem (List.replicate 96 "Blank") (y * 12 + x) hi hb
    have hmod : (y * 12 + x) % 12 = x := by omega
    have hdiv : (y * 12 + x) / 12 = y := by omega
    rwa [hmod, hdiv] at hmem

/-- Witness for C5 at the concrete 96-slot all-blank board. -/
theorem c5_witness :
    get_empties (List.replicate 96 "Blank") =
      .ok (empties_spec (List.replicate 96 "Blank")) :=
  (c5_empties (List.replicate 96 "Blank") (by decide)).1

/-- Claim C7: players are coded by position — the sentinel-prefixed alphabet
gives the first player the non-letter sentinel and the next 26 players a..z —
and a constellation is marked for a player exactly when the player's code
character occurs in its recorded completion string, a null or empty string
matching no player. -/
theorem c7_constellations (rd : RefData) (names : List String)
    (prog : List (Option String × Int)) (charname : String) (c : Char)
    (i : Nat) :
    sentinelCodes.toList = '_' :: (List.range 26).map (fun k => Char.ofNat (97 + k)) ∧
    (sentinelCodes.toList.getD 0 ' ').isAlpha = false ∧
    (names.Nodup → i < names.length → i < 27 →
      lookupLast (char_map names) (names.getD i "") =
        some (sentinelCodes.toList.getD i ' ')) ∧
    (lookupLast (char_map names) charname = some c →
      get_player_constellations rd names prog charname =
        .ok (constellations_spec rd c prog)) ∧
    (∀ ch : Char, strHas "" ch = false) := by
  refine ⟨by decide, by decide, ?_, ?_, fun ch => rfl⟩
  · intro hn hlen h27
    exact lookupLast_zip_nodup names sentinelCodes.toList i "" ' ' hn hlen
      (by rw [show sentinelCodes.toList.length = 27 from by decide]; exact h27)
  · intro hc
    unfold get_player_constellations constellations_spec
    exact gpc_aux_eq rd (char_map names) charname c hc 0 prog

/-- Witness for C7: the second player gets code letter a, and the completion
strings containing it mark their constellations while null and empty strings
mark nothing. -/
theorem c7_witness :
    lookupLast (char_map ["Alice", "Bob"])
        ((["Alice", "Bob"] : List String).getD 1 "") =
      some (sentinelCodes.toList.getD 1 ' ') ∧
    get_player_constellations rd0 ["Alice", "Bob"]
        [(some "_a", 1), (none, 0), (some "", 2)] "Bob" =
      .ok (constellations_spec rd0 'a' [(some "_a", 1), (none, 0), (some "", 2)]) := by
  refine ⟨(c7_constellations rd0 ["Alice", "Bob"] [] "Bob" 'a' 1).2.2.1
      (by decide) (by decide) (by decide), ?_⟩
  exact (c7_constellations rd0 ["Alice", "Bob"]
      [(some "_a", 1), (none, 0), (some "", 2)] "Bob" 'a' 1).2.2.2.1 (by decide)

/-- Claim C10 counterexample: a save with 28 players but an empty
constellation progression list builds the chars section successfully — more
than 27 players alone does not force a key-lookup failure. -/
theorem c10_counterexample :
    27 < e28.names.length ∧ okLength (get_chars rd0 e28) = some 28 := by
  decide

/-- Claim C10 (amended): with more than 27 distinctly named players, a
nonempty constellation progression list, and parallel player sequences
reaching the 28th player, the 28th player has no code in the positional map,
that player's record build fails with the key-lookup error, and the whole
chars section build fails. -/
theorem c10_overflow (rd : RefData) (e : Exporter)
    (h1 : e.names.Nodup) (h2 : 28 ≤ e.names.length)
    (h3 : e.starsigns_prog ≠ [])
    (h4 : 28 ≤ e.classes.length) (h5 : 28 ≤ e.stats.length)
    (h6 : 28 ≤ e.starsigns_equipped.length) (h7 : 28 ≤ e.skill_levels.length)
    (h8 : 28 ≤ e.bags_used.length) (h9 : 28 ≤ e.carrycaps.length)
    (h10 : 4 < (e.stats.getD 27 []).length) :
    lookupLast (char_map e.names) (e.names.getD 27 "") = none ∧
    build_char rd e.names e.starsigns_prog (e.names.getD 27 "")
      (e.classes.getD 27 0) (e.stats.getD 27 []) (e.starsigns_equipped.getD 27 "")
      (e.skill_levels.getD 27 []) (e.bags_used.getD 27 [])
      (e.carrycaps.getD 27 []) = .error "KeyError: char_map" ∧
    (∃ msg, get_chars rd e = .error msg) := by
  have hkey : lookupLast (char_map e.names) (e.names.getD 27 "") = none :=
    char_map_28th_none e.names h1 h2
  obtain ⟨p, rest, hp⟩ : ∃ p rest, e.starsigns_prog = p :: rest := by
    cases hsp : e.starsigns_prog with
    | nil => exact absurd hsp h3
    | cons p rest => exact ⟨p, rest, rfl⟩
  have hgpc : get_player_constellations rd e.names e.starsigns_prog
      (e.names.getD 27 "") = .error "KeyError: char_map" := by
    unfold get_player_constellations
    rw [hp]
    obtain ⟨chars, comp⟩ := p
    simp only [gpc_aux, hkey]
  have hbc : build_char rd e.names e.starsigns_prog (e.names.getD 27 "")
      (e.classes.getD 27 0) (e.stats.getD 27 []) (e.starsigns_equipped.getD 27 "")
      (e.skill_levels.getD 27 []) (e.bags_used.getD 27 [])
      (e.carrycaps.getD 27 []) = .error "KeyError: char_map" := by
    have hv : (e.stats.getD 27 [])[4]? = some ((e.stats.getD 27 [])[4]) :=
      List.getElem?_eq_getElem h10
    unfold build_char
    rw [hv, hgpc]
  refine ⟨hkey, hbc, ?_⟩
  have hn27 : 27 < e.names.length := by omega
  have hc27 : 27 < e.classes.length := by omega
  have hs27 : 27 < e.stats.length := by omega
  have hg27 : 27 < e.starsigns_equipped.length := by omega
  have hk27 : 27 < e.skill_levels.length := by omega
  have hb27 : 27 < e.bags_used.length := by omega
  have hy27 : 27 < e.carrycaps.length := by omega
  have hzlen : 27 < (e.names.zip (e.classes.zip (e.stats.zip
      (e.starsigns_equipped.zip (e.skill_levels.zip
        (e.bags_used.zip e.carrycaps)))))).length := by
    simp only [List.length_zip]
    omega
  unfold get_chars
  apply mapE_error_of_mem _ _ _ "KeyError: char_map" (List.getElem_mem hzlen)
  have hx : (e.names.zip (e.classes.zip (e.stats.zip (e.starsigns_equipped.zip
      (e.skill_levels.zip (e.bags_used.zip e.carrycaps))))))[27] =
      (e.names[27], (e.classes[27], (e.stats[27], (e.starsigns_equipped[27],
        (e.skill_levels[27], (e.bags_used[27], e.carrycaps[27])))))) := by
    simp [List.getElem_zip]
  rw [hx]
  rw [List.getD_eq_getElem e.names "" hn27, List.getD_eq_getElem e.classes 0 hc27,
    List.getD_eq_getElem e.stats [] hs27,
    List.getD_eq_getElem e.starsigns_equipped "" hg27,
    List.getD_eq_getElem e.skill_levels [] hk27,
    List.getD_eq_getElem e.bags_used [] hb27,
    List.getD_eq_getElem e.carrycaps [] hy27] at hbc
  exact hbc

/-- Witness for C10 at a concrete 28-player save with distinct names and one
progression entry. -/
theorem c10_witness :
    build_char rd0 e28d.names e28d.starsigns_prog (e28d.names.getD 27 "")
      (e28d.classes.getD 27 0) (e28d.stats.getD 27 [])
      (e28d.starsigns_equipped.getD 27 "") (e28d.skill_levels.getD 27 [])
      (e28d.bags_used.getD 27 []) (e28d.carrycaps.getD 27 []) =
        .error "KeyError: char_map" ∧
    (∃ msg, get_chars rd0 e28d = .error msg) :=
  ⟨(c10_overflow rd0 e28d (by decide) (by decide) (by decide) (by decide)
      (by decide) (by decide) (by decide) (by decide) (by decide) (by decide)).2.1,
    (c10_overflow rd0 e28d (by decide) (by decide) (by decide) (by decide)
      (by decide) (by decide) (by decide) (by decide) (by decide) (by decide)).2.2⟩

/-- Claim C1: the code writes the class display name straight from the
player's own class id — `get_classname(klass)` — whereas the claimed
behaviour resolves the id through `get_baseclass` first; the two disagree at
any class id whose own display name differs from its base's (e.g. id 2, whose
base is 1). -/
theorem c1_class_field (rd : RefData)
    (h : get_classname rd 2 ≠ get_classname rd 1) :
    ∃ pr, build_char rd ["P"] [] "P" 2 [0, 0, 0, 0, 7] "0" [] [] [] = .ok pr ∧
      pr.klass = get_classname rd 2 ∧
      class_field_spec rd 2 = .ok (get_classname rd 1) ∧
      Except.ok pr.klass ≠ class_field_spec rd 2 := by
  refine ⟨_, rfl, rfl, rfl, ?_⟩
  intro hx
  have hcc : get_classname rd 2 = get_classname rd 1 := Except.ok.inj hx
  exact h hcc

/-- Witness for C1 at a concrete class-name table distinguishing ids 1 and 2. -/
theorem c1_witness :
    ∃ pr, build_char rd0 ["P"] [] "P" 2 [0, 0, 0, 0, 7] "0" [] [] [] = .ok pr ∧
      pr.klass = get_classname rd0 2 ∧
      class_field_spec rd0 2 = .ok (get_classname rd0 1) ∧
      Except.ok pr.klass ≠ class_field_spec rd0 2 :=
  c1_class_field rd0 (by decide)

end Idleon
